import Mathlib

/-!
Verification of the relay-bot configuration store and message router
(`src/main.py`), as a shallow embedding in Lean.

The backing file `config.json` is modelled by `File`: it is either absent,
present but blank (its content strips to the empty string), present with
content that the JSON decoder rejects, or present with content parsing to a
JSON value `JVal`.  JSON numbers are modelled as integers (the program only
ever stores platform channel ids, which are integers).  Python dicts are
modelled as association lists in insertion order; `json.loads` never
produces duplicate keys, so lemmas that need key uniqueness take a `Nodup`
hypothesis.  Operations that can raise a Python exception return
`PyResult`, paired with the file state at the moment of return or raise.
-/

namespace RelayBot

/-- A parsed JSON value (Python object produced by `json.loads`).
Objects keep field insertion order, as Python dicts do. -/
inductive JVal where
  | null
  | bool (b : Bool)
  | num (n : Int)
  | str (s : String)
  | arr (xs : List JVal)
  | obj (fields : List (String × JVal))

/-- The state of the backing file `config.json`. -/
inductive File where
  | absent
  | emptyContent
  | corrupt
  | json (v : JVal)

/-- Result of running a piece of Python code: a value, or a raised exception. -/
inductive PyResult (α : Type) where
  | ok (a : α)
  | exc

/-- Python dict lookup on an association list (first occurrence; dicts from
`json.loads` have unique keys, so first = only). -/
def dictLookup : List (String × JVal) → String → Option JVal
  | [], _ => none
  | (k', v) :: rest, k => if k' = k then some v else dictLookup rest k

/-- Python dict item assignment `d[k] = v`: update in place if the key is
present, otherwise append at the end (insertion order). -/
def dictSet : List (String × JVal) → String → JVal → List (String × JVal)
  | [], k, v => [(k, v)]
  | (k', v') :: rest, k, v =>
    if k' = k then (k, v) :: rest else (k', v') :: dictSet rest k v

/-- Python `del d[k]` on a dict. -/
def dictDel : List (String × JVal) → String → List (String × JVal)
  | [], _ => []
  | (k', v') :: rest, k => if k' = k then rest else (k', v') :: dictDel rest k

/-- Python `config.get(key, default)`: `AttributeError` (modelled `exc`)
when the receiver is not a dict. -/
def pyDictGet : JVal → String → JVal → PyResult JVal
  | .obj fs, k, dflt => .ok ((dictLookup fs k).getD dflt)
  | _, _, _ => .exc

/-- Python `==` between a JSON value and the string `s`. -/
def jEqStr (s : String) : JVal → Bool
  | .str t => t == s
  | _ => false

/-- Python `==` between a JSON value and the int `d`
(`True == 1` and `False == 0` hold in Python). -/
def jEqNum (d : Int) : JVal → Bool
  | .num n => n == d
  | .bool b => (if b then (1 : Int) else 0) == d
  | _ => false

/-- Whether the characters of `needle` occur contiguously in `hay`
(Python `needle in hay` for strings). -/
def strInfix (needle hay : String) : Bool :=
  hay.data.tails.any (fun t => needle.data.isPrefixOf t)

/-- Python `s in v` where `s` is a string: key test on dicts, element test
on lists, substring test on strings, `TypeError` otherwise. -/
def pyInStr (s : String) : JVal → PyResult Bool
  | .obj fs => .ok (fs.any (fun p => p.1 == s))
  | .arr xs => .ok (xs.any (jEqStr s))
  | .str t => .ok (strInfix s t)
  | _ => .exc

/-- Python `d in v` where `d` is an int: key test on dicts (an int never
equals a JSON string key), element test on lists, `TypeError` otherwise. -/
def pyInNum (d : Int) : JVal → PyResult Bool
  | .obj _ => .ok false
  | .arr xs => .ok (xs.any (jEqNum d))
  | _ => .exc

/-- Python subscript `v[k]` with a string key: dict access (`KeyError` when
absent), `TypeError` on every other JSON type. -/
def pyIndex : JVal → String → PyResult JVal
  | .obj fs, k =>
    match dictLookup fs k with
    | some v => .ok v
    | none => .exc
  | _, _ => .exc

/-- Python `list.remove(d)`: drop the first element equal to `d`. -/
def removeFirstEq (d : Int) : List JVal → List JVal
  | [] => []
  | x :: xs => if jEqNum d x then xs else x :: removeFirstEq d xs

/-- A nonempty all-digit character list read as a decimal numeral. -/
def digitsToNat (cs : List Char) : Option Nat :=
  if cs ≠ [] ∧ cs.all Char.isDigit then
    some (cs.foldl (fun a c => a * 10 + (c.toNat - 48)) 0)
  else
    none

/-- Python `int(s)` on a string: surrounding whitespace, an optional sign,
then decimal digits; `ValueError` (modelled `none`) otherwise.  (Digit
grouping underscores, accepted by CPython, never occur in this program's
inputs and are out of the model.) -/
def pyIntOfStr (s : String) : Option Int :=
  match s.trim.data with
  | [] => none
  | '-' :: rest => (digitsToNat rest).map (fun n => -(n : Int))
  | '+' :: rest => (digitsToNat rest).map (fun n => (n : Int))
  | cs => (digitsToNat cs).map (fun n => (n : Int))

/-- Python `int(v)` on a JSON value: ints unchanged, bools as 0/1, strings
parsed, `TypeError` on the rest. -/
def pyIntOf : JVal → PyResult Int
  | .num n => .ok n
  | .bool b => .ok (if b then 1 else 0)
  | .str t =>
    match pyIntOfStr t with
    | some n => .ok n
    | none => .exc
  | _ => .exc

/-- Python `str.lower()`: lower-case every character (ASCII case mapping;
every string this program compares after lowering is ASCII). -/
def pyLower (s : String) : String := String.mk (s.data.map Char.toLower)

/-- Python `for x in v`: lists yield elements, dicts yield keys, strings
yield one-character strings, the rest raise `TypeError`. -/
def iterElems : JVal → PyResult (List JVal)
  | .arr xs => .ok xs
  | .obj fs => .ok (fs.map (fun p => JVal.str p.1))
  | .str t => .ok (t.data.map (fun c => JVal.str (String.singleton c)))
  | _ => .exc

/-- The default config `loadConfig` creates: a single field `relayChannels`
holding an empty mapping. -/
def defaultConfig : JVal := .obj [("relayChannels", .obj [])]

/-- `loadConfig` (main.py 16-37).  Absent file: write the default config and
return it.  Blank file: return the default config (the file is NOT
rewritten).  Undecodable content: overwrite with the default config and
return it.  Decodable content: return the parsed value as is, whatever its
shape.  Returns the parsed value and the file state afterwards. -/
def loadConfig : File → JVal × File
  | .absent => (defaultConfig, .json defaultConfig)
  | .emptyContent => (defaultConfig, .emptyContent)
  | .corrupt => (defaultConfig, .json defaultConfig)
  | .json v => (v, .json v)

/-- `getRelayChannels` (main.py 39-42): load, then `config.get("relayChannels", {})`. -/
def getRelayChannels (f : File) : PyResult JVal × File :=
  match loadConfig f with
  | (config, f1) =>
    match pyDictGet config "relayChannels" (.obj []) with
    | .ok r => (.ok r, f1)
    | .exc => (.exc, f1)

/-- `updateRelayChannels` (main.py 44-51): load, append `destId` to the list
under `sourceId` (creating it when absent), write the config back.  Raises
(`exc`) when the loaded config, the relay mapping, or the entry is not of
the expected Python type; the file then stays as the load left it. -/
def updateRelayChannels (f : File) (sourceId : String) (destId : Int) :
    PyResult Unit × File :=
  match loadConfig f with
  | (config, f1) =>
    match config with
    | .obj cfs =>
      match (dictLookup cfs "relayChannels").getD (.obj []) with
      | .obj rfs =>
        match (dictLookup rfs sourceId).getD (.arr []) with
        | .arr xs =>
          let rfs1 := dictSet rfs sourceId (.arr (xs ++ [.num destId]))
          (.ok (), .json (.obj (dictSet cfs "relayChannels" (.obj rfs1))))
        | _ => (.exc, f1)
      | _ => (.exc, f1)
    | _ => (.exc, f1)

/-- `removeRelayEntry` (main.py 53-76): load; `False` when `sourceId` is not
in the mapping; with no `destId` delete the whole key; otherwise remove one
occurrence of `destId` from the entry (`False` when absent), deleting the
key when the entry becomes empty; write back and return `True` on every
mutation. -/
def removeRelayEntry (f : File) (sourceId : String) (destId : Option Int) :
    PyResult Bool × File :=
  match loadConfig f with
  | (config, f1) =>
    match config with
    | .obj cfs =>
      let relay := (dictLookup cfs "relayChannels").getD (.obj [])
      match pyInStr sourceId relay with
      | .exc => (.exc, f1)
      | .ok false => (.ok false, f1)
      | .ok true =>
        match destId with
        | none =>
          match relay with
          | .obj rfs =>
            (.ok true,
              .json (.obj (dictSet cfs "relayChannels" (.obj (dictDel rfs sourceId)))))
          | _ => (.exc, f1)
        | some d =>
          match relay with
          | .obj rfs =>
            match dictLookup rfs sourceId with
            | some entry =>
              match pyInNum d entry with
              | .exc => (.exc, f1)
              | .ok false => (.ok false, f1)
              | .ok true =>
                match entry with
                | .arr xs =>
                  let xs1 := removeFirstEq d xs
                  let rfs1 :=
                    if xs1.isEmpty then dictDel rfs sourceId
                    else dictSet rfs sourceId (.arr xs1)
                  (.ok true, .json (.obj (dictSet cfs "relayChannels" (.obj rfs1))))
                | _ => (.exc, f1)
            | none => (.exc, f1)
          | _ => (.exc, f1)
    | _ => (.exc, f1)

/-- An inbound platform message, with the fields `on_message` and the
command flows read: author-is-bot flag, channel id, channel mentions, raw
text content. -/
structure Message where
  authorBot : Bool
  channelId : Int
  channelMentions : List Int
  content : String

/-- What one `on_message` invocation did: the `(channel id, text)` sends it
performed in order, whether it handed the message to command dispatch
(`bot.process_commands`), and whether it raised. -/
structure RouterResult where
  sends : List (Int × String)
  dispatched : Bool
  raised : Bool

/-- The forwarding loop of `on_message` (main.py 197-200): for each stored
destination, `int(destId)` then `bot.get_channel`; send the content when the
channel resolves.  A conversion failure raises, keeping the sends made so
far. -/
def forwardLoop (resolvable : Int → Bool) (content : String) :
    List JVal → List (Int × String) × Bool
  | [] => ([], false)
  | e :: rest =>
    match pyIntOf e with
    | .exc => ([], true)
    | .ok n =>
      if resolvable n then
        match forwardLoop resolvable content rest with
        | (s, r) => ((n, content) :: s, r)
      else forwardLoop resolvable content rest

/-- `on_message` (main.py 189-202): ignore bot authors; when the message's
channel id (as string) is a relay source, forward the content to each
resolvable destination; otherwise hand the message to command dispatch.
`resolvable` models which ids `bot.get_channel` resolves. -/
def on_message (f : File) (resolvable : Int → Bool) (msg : Message) :
    RouterResult × File :=
  if msg.authorBot then (⟨[], false, false⟩, f)
  else
    match getRelayChannels f with
    | (.exc, f1) => (⟨[], false, true⟩, f1)
    | (.ok relay, f1) =>
      match pyInStr (toString msg.channelId) relay with
      | .exc => (⟨[], false, true⟩, f1)
      | .ok true =>
        match pyIndex relay (toString msg.channelId) with
        | .exc => (⟨[], false, true⟩, f1)
        | .ok entry =>
          match iterElems entry with
          | .exc => (⟨[], false, true⟩, f1)
          | .ok elems =>
            match forwardLoop resolvable msg.content elems with
            | (sends, r) => (⟨sends, false, r⟩, f1)
      | .ok false => (⟨[], true, false⟩, f1)

/-- Channel resolution shared by the command flows (main.py 95-98, 140-143,
164-168): the first channel mention when there is one, else `int` of the
trimmed text resolved through `bot.get_channel`; `exc` models the
`ValueError` of a failed parse. -/
def resolveFromMsg (resolvable : Int → Bool) (m : Message) :
    PyResult (Option Int) :=
  match m.channelMentions with
  | c :: _ => .ok (some c)
  | [] =>
    match pyIntOfStr m.content.trim with
    | none => .exc
    | some n => .ok (if resolvable n then some n else none)

/-- The user-visible outcome of one `remove` command invocation. -/
inductive RemoveOutcome where
  | cancelled
  | invalidSource
  | removedAll
  | noRelaysFound
  | invalidDestId
  | invalidDest
  | removedOne
  | notFound

/-- The `remove` command flow (main.py 130-187), given the two replies the
two `wait_for` calls observed: resolve the source channel; when the second
reply lowercases to `all`, remove the whole source entry; otherwise resolve
a destination and remove just that relay, reporting each boolean result. -/
def removeFlow (f : File) (resolvable : Int → Bool)
    (sourceMsg destMsg : Message) : RemoveOutcome × File :=
  match resolveFromMsg resolvable sourceMsg with
  | .exc => (.cancelled, f)
  | .ok none => (.invalidSource, f)
  | .ok (some c) =>
    let sourceID := toString c
    if pyLower destMsg.content = "all" then
      match removeRelayEntry f sourceID none with
      | (.ok true, f1) => (.removedAll, f1)
      | (.ok false, f1) => (.noRelaysFound, f1)
      | (.exc, f1) => (.cancelled, f1)
    else
      match destMsg.channelMentions with
      | c2 :: _ =>
        match removeRelayEntry f sourceID (some c2) with
        | (.ok true, f1) => (.removedOne, f1)
        | (.ok false, f1) => (.notFound, f1)
        | (.exc, f1) => (.cancelled, f1)
      | [] =>
        match pyIntOfStr destMsg.content.trim with
        | none => (.invalidDestId, f)
        | some n =>
          if resolvable n then
            match removeRelayEntry f sourceID (some n) with
            | (.ok true, f1) => (.removedOne, f1)
            | (.ok false, f1) => (.notFound, f1)
            | (.exc, f1) => (.cancelled, f1)
          else (.invalidDest, f)

/-- One ConfigStore mutation, for sequences of operations. -/
inductive Op where
  | add (s : String) (d : Int)
  | remove (s : String) (d : Option Int)

/-- Apply one mutation to the backing file, keeping the file state whatever
the call's result was. -/
def applyOp (f : File) : Op → File
  | .add s d => (updateRelayChannels f s d).2
  | .remove s d => (removeRelayEntry f s d).2

/-- Apply a sequence of mutations to the backing file. -/
def runOps (f : File) (ops : List Op) : File := ops.foldl applyOp f

/-- A relay mapping is well formed when its keys are unique (a Python dict
guarantee) and every entry is a nonempty JSON array. -/
def ROk (rfs : List (String × JVal)) : Prop :=
  (rfs.map Prod.fst).Nodup ∧ ∀ p ∈ rfs, ∃ xs, p.2 = JVal.arr xs ∧ xs ≠ []

/-- The backing file holds exactly a well-formed `RelayConfig`: one
top-level field `relayChannels` whose mapping is well formed. -/
def Inv (f : File) : Prop :=
  ∃ rfs, f = .json (.obj [("relayChannels", .obj rfs)]) ∧ ROk rfs

/-! ### Association-list (Python dict) lemmas -/

theorem dictLookup_dictSet_self (fs : List (String × JVal)) (k : String) (v : JVal) :
    dictLookup (dictSet fs k v) k = some v := by
  induction fs with
  | nil => simp [dictSet, dictLookup]
  | cons p rest ih =>
    by_cases h : p.1 = k
    · simp [dictSet, dictLookup, h]
    · simp [dictSet, dictLookup, h, ih]

theorem dictLookup_dictSet_ne (fs : List (String × JVal)) (k k' : String) (v : JVal)
    (h : k' ≠ k) : dictLookup (dictSet fs k v) k' = dictLookup fs k' := by
  have hk : ¬ k = k' := fun h' => h h'.symm
  induction fs with
  | nil => simp [dictSet, dictLookup, hk]
  | cons p rest ih =>
    by_cases hp : p.1 = k
    · simp [dictSet, dictLookup, hp, hk]
    · simp only [dictSet, hp, if_false, dictLookup]
      by_cases hp' : p.1 = k'
      · simp [hp']
      · simp [hp', ih]

theorem dictLookup_dictDel_ne (fs : List (String × JVal)) (k k' : String)
    (h : k' ≠ k) : dictLookup (dictDel fs k) k' = dictLookup fs k' := by
  induction fs with
  | nil => simp [dictDel]
  | cons p rest ih =>
    by_cases hp : p.1 = k
    · have hp' : ¬ p.1 = k' := fun h' => h (hp ▸ h'.symm)
      have hk : ¬ k = k' := fun h' => h h'.symm
      simp [dictDel, dictLookup, hp, hp', hk, ih]
    · simp only [dictDel, hp, if_false, dictLookup]
      by_cases hp' : p.1 = k'
      · simp [hp']
      · simp [hp', ih]

theorem dictLookup_eq_none_of_not_mem (fs : List (String × JVal)) (k : String)
    (h : k ∉ fs.map Prod.fst) : dictLookup fs k = none := by
  induction fs with
  | nil => rfl
  | cons p rest ih =>
    simp only [List.map_cons, List.mem_cons, not_or] at h
    have hp : ¬ p.1 = k := fun h' => h.1 h'.symm
    simp [dictLookup, hp, ih h.2]

theorem dictLookup_dictDel_self (fs : List (String × JVal)) (k : String)
    (hnd : (fs.map Prod.fst).Nodup) : dictLookup (dictDel fs k) k = none := by
  induction fs with
  | nil => rfl
  | cons p rest ih =>
    simp only [List.map_cons, List.nodup_cons] at hnd
    by_cases hp : p.1 = k
    · simpa [dictDel, hp] using dictLookup_eq_none_of_not_mem rest k (hp ▸ hnd.1)
    · simp [dictDel, dictLookup, hp, ih hnd.2]

theorem dictDel_sublist (fs : List (String × JVal)) (k : String) :
    (dictDel fs k).Sublist fs := by
  induction fs with
  | nil => exact List.Sublist.refl _
  | cons p rest ih =>
    by_cases hp : p.1 = k
    · rw [dictDel, if_pos hp]
      exact List.sublist_cons_self p rest
    · simpa [dictDel, hp] using ih.cons₂ p

theorem keys_dictSet (fs : List (String × JVal)) (k : String) (v : JVal) :
    (dictSet fs k v).map Prod.fst = fs.map Prod.fst ∨
      ((dictSet fs k v).map Prod.fst = fs.map Prod.fst ++ [k] ∧ k ∉ fs.map Prod.fst) := by
  induction fs with
  | nil => simp [dictSet]
  | cons p rest ih =>
    by_cases hp : p.1 = k
    · left; simp [dictSet, hp]
    · rcases ih with h | ⟨h1, h2⟩
      · left; simp [dictSet, hp, h]
      · right
        constructor
        · simp [dictSet, hp, h1]
        · simp only [List.map_cons, List.mem_cons, not_or]
          exact ⟨fun h' => hp h'.symm, h2⟩

theorem nodup_keys_dictSet (fs : List (String × JVal)) (k : String) (v : JVal)
    (hnd : (fs.map Prod.fst).Nodup) : ((dictSet fs k v).map Prod.fst).Nodup := by
  rcases keys_dictSet fs k v with h | ⟨h1, h2⟩
  · rw [h]; exact hnd
  · rw [h1]
    refine List.Nodup.append hnd (List.nodup_singleton k) ?_
    intro a ha hb
    simp only [List.mem_singleton] at hb
    exact h2 (hb ▸ ha)

theorem mem_dictSet (fs : List (String × JVal)) (k : String) (v : JVal)
    (p : String × JVal) (hp : p ∈ dictSet fs k v) : p = (k, v) ∨ p ∈ fs := by
  induction fs with
  | nil => simpa [dictSet] using hp
  | cons q rest ih =>
    by_cases hq : q.1 = k
    · rcases (by simpa [dictSet, hq] using hp : p = (k, v) ∨ p ∈ rest) with h | h
      · exact Or.inl h
      · exact Or.inr (List.mem_cons_of_mem q h)
    · rcases (by simpa [dictSet, hq] using hp : p = q ∨ p ∈ dictSet rest k v) with h | h
      · exact Or.inr (h ▸ List.mem_cons_self q rest)
      · rcases ih h with h' | h'
        · exact Or.inl h'
        · exact Or.inr (List.mem_cons_of_mem q h')

theorem dictLookup_mem (fs : List (String × JVal)) (k : String) (v : JVal)
    (h : dictLookup fs k = some v) : (k, v) ∈ fs := by
  induction fs with
  | nil => simp [dictLookup] at h
  | cons p rest ih =>
    by_cases hp : p.1 = k
    · simp only [dictLookup, hp, if_true, Option.some.injEq] at h
      have hpv : (k, v) = p := by
        calc (k, v) = (p.1, p.2) := by rw [hp, h]
          _ = p := rfl
      rw [hpv]
      exact List.mem_cons_self p rest
    · simp only [dictLookup, hp, if_false] at h
      exact List.mem_cons_of_mem p (ih h)

theorem any_key_eq_true_of_lookup_some (fs : List (String × JVal)) (k : String)
    (v : JVal) (h : dictLookup fs k = some v) :
    fs.any (fun p => p.1 == k) = true := by
  induction fs with
  | nil => simp [dictLookup] at h
  | cons p rest ih =>
    by_cases hp : p.1 = k
    · simp [List.any_cons, hp]
    · simp only [dictLookup, hp, if_false] at h
      simp [List.any_cons, ih h]

theorem any_key_eq_false_of_lookup_none (fs : List (String × JVal)) (k : String)
    (h : dictLookup fs k = none) : fs.any (fun p => p.1 == k) = false := by
  induction fs with
  | nil => rfl
  | cons p rest ih =>
    by_cases hp : p.1 = k
    · simp [dictLookup, hp] at h
    · simp only [dictLookup, hp, if_false] at h
      simp [List.any_cons, hp, ih h]

/-! ### Computation lemmas for the store operations on a parsed config -/

theorem updateRelayChannels_eq (cfs rfs : List (String × JVal)) (s : String) (d : Int)
    (xs : List JVal)
    (hrelay : (dictLookup cfs "relayChannels").getD (JVal.obj []) = JVal.obj rfs)
    (hcur : (dictLookup rfs s).getD (JVal.arr []) = JVal.arr xs) :
    updateRelayChannels (File.json (JVal.obj cfs)) s d =
      (.ok (), File.json (JVal.obj (dictSet cfs "relayChannels"
        (JVal.obj (dictSet rfs s (JVal.arr (xs ++ [JVal.num d]))))))) := by
  simp only [updateRelayChannels, loadConfig, hrelay, hcur]

theorem removeRelayEntry_not_key (cfs rfs : List (String × JVal)) (s : String)
    (dOpt : Option Int)
    (hrelay : (dictLookup cfs "relayChannels").getD (JVal.obj []) = JVal.obj rfs)
    (hnone : dictLookup rfs s = none) :
    removeRelayEntry (File.json (JVal.obj cfs)) s dOpt =
      (.ok false, File.json (JVal.obj cfs)) := by
  simp only [removeRelayEntry, loadConfig, hrelay, pyInStr,
    any_key_eq_false_of_lookup_none rfs s hnone]

theorem removeRelayEntry_all_eq (cfs rfs : List (String × JVal)) (s : String)
    (entry : JVal)
    (hrelay : (dictLookup cfs "relayChannels").getD (JVal.obj []) = JVal.obj rfs)
    (hsome : dictLookup rfs s = some entry) :
    removeRelayEntry (File.json (JVal.obj cfs)) s none =
      (.ok true, File.json (JVal.obj (dictSet cfs "relayChannels"
        (JVal.obj (dictDel rfs s))))) := by
  simp only [removeRelayEntry, loadConfig, hrelay, pyInStr,
    any_key_eq_true_of_lookup_some rfs s entry hsome]

theorem removeRelayEntry_dest_mem_eq (cfs rfs : List (String × JVal)) (s : String)
    (d : Int) (xs : List JVal)
    (hrelay : (dictLookup cfs "relayChannels").getD (JVal.obj []) = JVal.obj rfs)
    (hsome : dictLookup rfs s = some (JVal.arr xs))
    (hmem : xs.any (jEqNum d) = true) :
    removeRelayEntry (File.json (JVal.obj cfs)) s (some d) =
      (.ok true, File.json (JVal.obj (dictSet cfs "relayChannels"
        (JVal.obj (if (removeFirstEq d xs).isEmpty then dictDel rfs s
          else dictSet rfs s (JVal.arr (removeFirstEq d xs))))))) := by
  simp only [removeRelayEntry, loadConfig, hrelay, pyInStr,
    any_key_eq_true_of_lookup_some rfs s _ hsome, hsome, pyInNum, hmem]

theorem removeRelayEntry_dest_not_mem (cfs rfs : List (String × JVal)) (s : String)
    (d : Int) (entry : JVal)
    (hrelay : (dictLookup cfs "relayChannels").getD (JVal.obj []) = JVal.obj rfs)
    (hsome : dictLookup rfs s = some entry)
    (hmem : pyInNum d entry = .ok false) :
    removeRelayEntry (File.json (JVal.obj cfs)) s (some d) =
      (.ok false, File.json (JVal.obj cfs)) := by
  simp only [removeRelayEntry, loadConfig, hrelay, pyInStr,
    any_key_eq_true_of_lookup_some rfs s _ hsome, hsome, hmem]

theorem removeRelayEntry_dest_exc (cfs rfs : List (String × JVal)) (s : String)
    (d : Int) (entry : JVal)
    (hrelay : (dictLookup cfs "relayChannels").getD (JVal.obj []) = JVal.obj rfs)
    (hsome : dictLookup rfs s = some entry)
    (hmem : pyInNum d entry = .exc) :
    removeRelayEntry (File.json (JVal.obj cfs)) s (some d) =
      (.exc, File.json (JVal.obj cfs)) := by
  simp only [removeRelayEntry, loadConfig, hrelay, pyInStr,
    any_key_eq_true_of_lookup_some rfs s _ hsome, hsome, hmem]

/-! ### The well-formedness invariant is preserved by every mutation -/

theorem Inv_update (f : File) (s : String) (d : Int) (h : Inv f) :
    Inv (updateRelayChannels f s d).2 := by
  obtain ⟨rfs, rfl, hnd, hvals⟩ := h
  have hrelay : (dictLookup [("relayChannels", JVal.obj rfs)] "relayChannels").getD
      (JVal.obj []) = JVal.obj rfs := rfl
  obtain ⟨xs, hcur⟩ : ∃ xs, (dictLookup rfs s).getD (JVal.arr []) = JVal.arr xs := by
    cases hlk : dictLookup rfs s with
    | none => exact ⟨[], rfl⟩
    | some entry =>
      obtain ⟨xs, hx, -⟩ := hvals (s, entry) (dictLookup_mem _ _ _ hlk)
      exact ⟨xs, by simp only [Option.getD_some]; exact hx⟩
  rw [updateRelayChannels_eq _ rfs s d xs hrelay hcur]
  refine ⟨dictSet rfs s (JVal.arr (xs ++ [JVal.num d])), by simp [dictSet],
    nodup_keys_dictSet _ _ _ hnd, ?_⟩
  intro p hp
  rcases mem_dictSet _ _ _ p hp with h' | h'
  · exact ⟨xs ++ [JVal.num d], by rw [h'], by simp⟩
  · exact hvals p h'

theorem Inv_remove (f : File) (s : String) (dOpt : Option Int) (h : Inv f) :
    Inv (removeRelayEntry f s dOpt).2 := by
  obtain ⟨rfs, rfl, hnd, hvals⟩ := h
  have hrelay : (dictLookup [("relayChannels", JVal.obj rfs)] "relayChannels").getD
      (JVal.obj []) = JVal.obj rfs := rfl
  have hdel : Inv (File.json (JVal.obj (dictSet [("relayChannels", JVal.obj rfs)]
      "relayChannels" (JVal.obj (dictDel rfs s))))) := by
    refine ⟨dictDel rfs s, by simp [dictSet], ?_, ?_⟩
    · exact hnd.sublist (List.Sublist.map Prod.fst (dictDel_sublist rfs s))
    · intro p hp
      exact hvals p ((dictDel_sublist rfs s).subset hp)
  cases hlk : dictLookup rfs s with
  | none =>
    rw [removeRelayEntry_not_key _ rfs s dOpt hrelay hlk]
    exact ⟨rfs, rfl, hnd, hvals⟩
  | some entry =>
    obtain ⟨xs, hx, hne⟩ := hvals (s, entry) (dictLookup_mem _ _ _ hlk)
    have hx' : entry = JVal.arr xs := hx
    rw [hx'] at hlk
    cases dOpt with
    | none =>
      rw [removeRelayEntry_all_eq _ rfs s _ hrelay hlk]
      exact hdel
    | some d =>
      cases hmem : xs.any (jEqNum d) with
      | false =>
        rw [removeRelayEntry_dest_not_mem _ rfs s d _ hrelay hlk
          (by simp only [pyInNum, hmem])]
        exact ⟨rfs, rfl, hnd, hvals⟩
      | true =>
        rw [removeRelayEntry_dest_mem_eq _ rfs s d xs hrelay hlk hmem]
        by_cases hemp : (removeFirstEq d xs).isEmpty
        · rw [if_pos hemp]
          exact hdel
        · rw [if_neg hemp]
          refine ⟨dictSet rfs s (JVal.arr (removeFirstEq d xs)), by simp [dictSet],
            nodup_keys_dictSet _ _ _ hnd, ?_⟩
          intro p hp
          rcases mem_dictSet _ _ _ p hp with h' | h'
          · exact ⟨removeFirstEq d xs, by rw [h'],
              fun hnil => hemp (by simp [hnil])⟩
          · exact hvals p h'

theorem Inv_runOps (ops : List Op) (f : File) (h : Inv f) : Inv (runOps f ops) := by
  induction ops generalizing f with
  | nil => exact h
  | cons op rest ih =>
    rw [runOps, List.foldl_cons]
    refine ih (applyOp f op) ?_
    cases op with
    | add s d => exact Inv_update f s d h
    | remove s dOpt => exact Inv_remove f s dOpt h

/-! ### The claims -/

/-- Claim C1: for every sequence of addMapping/removeMapping operations
starting from the default config, the backing file deserializes to a
well-formed RelayConfig: the relayChannels field is present (with unique
keys) and no key maps to an empty destination list. -/
theorem C1_config_always_wellformed (ops : List Op) :
    ∃ rfs, runOps (File.json defaultConfig) ops =
        File.json (JVal.obj [("relayChannels", JVal.obj rfs)]) ∧
      (rfs.map Prod.fst).Nodup ∧
      ∀ p ∈ rfs, ∃ xs, p.2 = JVal.arr xs ∧ xs ≠ [] := by
  have h0 : Inv (File.json defaultConfig) :=
    ⟨[], rfl, by simp, by intro p hp; cases hp⟩
  obtain ⟨rfs, heq, hnd, hvals⟩ := Inv_runOps ops _ h0
  exact ⟨rfs, heq, hnd, hvals⟩

/-- Claim C2 counterexample: the claim says an existing empty file is
overwritten with the default config; in the code an empty file is left
untouched (only its parse result is defaulted).  Moreover content that
parses as JSON but has the wrong shape (here: the empty JSON array) is
returned as-is, not replaced by the default. -/
theorem C2_counterexample :
    loadConfig File.emptyContent = (defaultConfig, File.emptyContent) ∧
    File.emptyContent ≠ File.json defaultConfig ∧
    loadConfig (File.json (JVal.arr [])) = (JVal.arr [], File.json (JVal.arr [])) ∧
    JVal.arr [] ≠ defaultConfig := by
  refine ⟨rfl, ?_, rfl, ?_⟩
  · intro h
    exact File.noConfusion h
  · intro h
    exact JVal.noConfusion h

/-- Claim C2 amended: load() on an empty existing file returns the default
config but does not rewrite the file; on undecodable content it overwrites
the file with the default and returns it; content that parses as JSON (of
any shape) is returned as-is with no overwrite; an absent file is created
holding the default. -/
theorem C2_amended_load_repair :
    loadConfig File.emptyContent = (defaultConfig, File.emptyContent) ∧
    loadConfig File.corrupt = (defaultConfig, File.json defaultConfig) ∧
    (∀ v : JVal, loadConfig (File.json v) = (v, File.json v)) ∧
    loadConfig File.absent = (defaultConfig, File.json defaultConfig) :=
  ⟨rfl, rfl, fun _ => rfl, rfl⟩

/-- Claim C9: a config file whose content is the text `{not json` is
nonempty and rejected by the JSON decoder (it is not valid JSON), i.e. the
corrupt file state: load() returns the default empty config and overwrites
the file with the serialized default config. -/
theorem C9_invalid_json_reset :
    loadConfig File.corrupt = (defaultConfig, File.json defaultConfig) ∧
    defaultConfig = JVal.obj [("relayChannels", JVal.obj [])] :=
  ⟨rfl, rfl⟩

/-- Claim C4: removeMapping with a source that is not a key, or with a key
whose destination list does not contain the given destination, returns
false and leaves the backing file exactly as it was (no write happens). -/
theorem C4_remove_miss_noop (cfs rfs : List (String × JVal)) (s : String)
    (dOpt : Option Int)
    (hrelay : (dictLookup cfs "relayChannels").getD (JVal.obj []) = JVal.obj rfs)
    (hmiss : dictLookup rfs s = none ∨
      ∃ d xs, dOpt = some d ∧ dictLookup rfs s = some (JVal.arr xs) ∧
        xs.any (jEqNum d) = false) :
    removeRelayEntry (File.json (JVal.obj cfs)) s dOpt =
      (.ok false, File.json (JVal.obj cfs)) := by
  rcases hmiss with h | ⟨d, xs, rfl, hlk, hmem⟩
  · exact removeRelayEntry_not_key _ rfs s dOpt hrelay h
  · exact removeRelayEntry_dest_not_mem _ rfs s d _ hrelay hlk
      (by simp only [pyInNum, hmem])

/-- Witness for C4 at a concrete config: removing source "7" (not a key)
from a config mapping "100" to [200] returns false and leaves the file
unchanged. -/
theorem C4_remove_miss_noop_witness :
    removeRelayEntry (File.json (JVal.obj [("relayChannels",
        JVal.obj [("100", JVal.arr [JVal.num 200])])])) "7" none =
      (.ok false, File.json (JVal.obj [("relayChannels",
        JVal.obj [("100", JVal.arr [JVal.num 200])])])) :=
  C4_remove_miss_noop _ [("100", JVal.arr [JVal.num 200])] "7" none rfl (Or.inl rfl)

/-- Claim C5: when d is the sole destination in s's list, removeMapping(s, d)
returns true and removes the key s entirely, so getRelayChannels afterwards
has no key s. -/
theorem C5_sole_dest_removes_key (cfs rfs : List (String × JVal)) (s : String)
    (d : Int)
    (hrelay : (dictLookup cfs "relayChannels").getD (JVal.obj []) = JVal.obj rfs)
    (hnd : (rfs.map Prod.fst).Nodup)
    (hlk : dictLookup rfs s = some (JVal.arr [JVal.num d])) :
    ∃ f1, removeRelayEntry (File.json (JVal.obj cfs)) s (some d) = (.ok true, f1) ∧
      getRelayChannels f1 = (.ok (JVal.obj (dictDel rfs s)), f1) ∧
      dictLookup (dictDel rfs s) s = none := by
  have hmem : ([JVal.num d] : List JVal).any (jEqNum d) = true := by simp [jEqNum]
  have heq := removeRelayEntry_dest_mem_eq cfs rfs s d [JVal.num d] hrelay hlk hmem
  have hrm : removeFirstEq d [JVal.num d] = [] := by simp [removeFirstEq, jEqNum]
  rw [hrm] at heq
  simp only [List.isEmpty_nil, if_true] at heq
  refine ⟨_, heq, ?_, dictLookup_dictDel_self rfs s hnd⟩
  simp only [getRelayChannels, loadConfig, pyDictGet, dictLookup_dictSet_self,
    Option.getD_some]

/-- Witness for C5 at a concrete config: removing 200, the sole destination
of "100", deletes the key "100". -/
theorem C5_sole_dest_removes_key_witness :
    ∃ f1, removeRelayEntry (File.json (JVal.obj [("relayChannels",
        JVal.obj [("100", JVal.arr [JVal.num 200])])])) "100" (some 200) =
        (.ok true, f1) ∧
      getRelayChannels f1 =
        (.ok (JVal.obj (dictDel [("100", JVal.arr [JVal.num 200])] "100")), f1) ∧
      dictLookup (dictDel [("100", JVal.arr [JVal.num 200])] "100") "100" = none :=
  C5_sole_dest_removes_key _ [("100", JVal.arr [JVal.num 200])] "100" 200 rfl
    (by simp) rfl

/-- Claim C6: when s is a key, removeMapping(s, None) returns true and
deletes the entire key s, so getRelayChannels afterwards has no key s. -/
theorem C6_remove_all_deletes_key (cfs rfs : List (String × JVal)) (s : String)
    (entry : JVal)
    (hrelay : (dictLookup cfs "relayChannels").getD (JVal.obj []) = JVal.obj rfs)
    (hnd : (rfs.map Prod.fst).Nodup)
    (hlk : dictLookup rfs s = some entry) :
    ∃ f1, removeRelayEntry (File.json (JVal.obj cfs)) s none = (.ok true, f1) ∧
      getRelayChannels f1 = (.ok (JVal.obj (dictDel rfs s)), f1) ∧
      dictLookup (dictDel rfs s) s = none := by
  have heq := removeRelayEntry_all_eq cfs rfs s entry hrelay hlk
  refine ⟨_, heq, ?_, dictLookup_dictDel_self rfs s hnd⟩
  simp only [getRelayChannels, loadConfig, pyDictGet, dictLookup_dictSet_self,
    Option.getD_some]

/-- Witness for C6 at a concrete config: removing all of source "100"
(a key with destinations [200, 300]) deletes the key "100". -/
theorem C6_remove_all_deletes_key_witness :
    ∃ f1, removeRelayEntry (File.json (JVal.obj [("relayChannels",
        JVal.obj [("100", JVal.arr [JVal.num 200, JVal.num 300])])])) "100" none =
        (.ok true, f1) ∧
      getRelayChannels f1 =
        (.ok (JVal.obj (dictDel [("100", JVal.arr [JVal.num 200, JVal.num 300])]
          "100")), f1) ∧
      dictLookup (dictDel [("100", JVal.arr [JVal.num 200, JVal.num 300])] "100")
        "100" = none :=
  C6_remove_all_deletes_key _ [("100", JVal.arr [JVal.num 200, JVal.num 300])]
    "100" (JVal.arr [JVal.num 200, JVal.num 300]) rfl (by simp) rfl

/-- Claim C7: starting from a config with no key "100", addMapping("100", 200)
then addMapping("100", 300) yields getRelayChannels with "100" mapped to
[200, 300] — destinations appended in call order with the list created on
the first add — and a further addMapping("100", 200) appends a duplicate,
giving [200, 300, 200]. -/
theorem C7_add_appends_in_order (cfs rfs : List (String × JVal))
    (hrelay : (dictLookup cfs "relayChannels").getD (JVal.obj []) = JVal.obj rfs)
    (habs : dictLookup rfs "100" = none) :
    ∃ f1 f2 f3 rfs2 rfs3,
      updateRelayChannels (File.json (JVal.obj cfs)) "100" 200 = (.ok (), f1) ∧
      updateRelayChannels f1 "100" 300 = (.ok (), f2) ∧
      getRelayChannels f2 = (.ok (JVal.obj rfs2), f2) ∧
      dictLookup rfs2 "100" = some (JVal.arr [JVal.num 200, JVal.num 300]) ∧
      updateRelayChannels f2 "100" 200 = (.ok (), f3) ∧
      getRelayChannels f3 = (.ok (JVal.obj rfs3), f3) ∧
      dictLookup rfs3 "100" =
        some (JVal.arr [JVal.num 200, JVal.num 300, JVal.num 200]) := by
  have hcur0 : (dictLookup rfs "100").getD (JVal.arr []) = JVal.arr [] := by
    rw [habs, Option.getD_none]
  have h1 := updateRelayChannels_eq cfs rfs "100" 200 [] hrelay hcur0
  simp only [List.nil_append] at h1
  have hrelay1 : (dictLookup (dictSet cfs "relayChannels"
      (JVal.obj (dictSet rfs "100" (JVal.arr [JVal.num 200])))) "relayChannels").getD
      (JVal.obj []) = JVal.obj (dictSet rfs "100" (JVal.arr [JVal.num 200])) := by
    rw [dictLookup_dictSet_self, Option.getD_some]
  have hcur1 : (dictLookup (dictSet rfs "100" (JVal.arr [JVal.num 200])) "100").getD
      (JVal.arr []) = JVal.arr [JVal.num 200] := by
    rw [dictLookup_dictSet_self, Option.getD_some]
  have h2 := updateRelayChannels_eq _ _ "100" 300 [JVal.num 200] hrelay1 hcur1
  simp only [List.cons_append, List.nil_append] at h2
  have hrelay2 : (dictLookup (dictSet (dictSet cfs "relayChannels"
      (JVal.obj (dictSet rfs "100" (JVal.arr [JVal.num 200])))) "relayChannels"
      (JVal.obj (dictSet (dictSet rfs "100" (JVal.arr [JVal.num 200])) "100"
        (JVal.arr [JVal.num 200, JVal.num 300])))) "relayChannels").getD
      (JVal.obj []) = JVal.obj (dictSet (dictSet rfs "100" (JVal.arr [JVal.num 200]))
        "100" (JVal.arr [JVal.num 200, JVal.num 300])) := by
    rw [dictLookup_dictSet_self, Option.getD_some]
  have hcur2 : (dictLookup (dictSet (dictSet rfs "100" (JVal.arr [JVal.num 200]))
      "100" (JVal.arr [JVal.num 200, JVal.num 300])) "100").getD (JVal.arr []) =
      JVal.arr [JVal.num 200, JVal.num 300] := by
    rw [dictLookup_dictSet_self, Option.getD_some]
  have h3 := updateRelayChannels_eq _ _ "100" 200
    [JVal.num 200, JVal.num 300] hrelay2 hcur2
  simp only [List.cons_append, List.nil_append] at h3
  refine ⟨_, _, _,
    dictSet (dictSet rfs "100" (JVal.arr [JVal.num 200])) "100"
      (JVal.arr [JVal.num 200, JVal.num 300]),
    dictSet (dictSet (dictSet rfs "100" (JVal.arr [JVal.num 200])) "100"
      (JVal.arr [JVal.num 200, JVal.num 300])) "100"
      (JVal.arr [JVal.num 200, JVal.num 300, JVal.num 200]),
    h1, h2, ?_, ?_, h3, ?_, ?_⟩
  · simp only [getRelayChannels, loadConfig, pyDictGet, dictLookup_dictSet_self,
      Option.getD_some]
  · rw [dictLookup_dictSet_self]
  · simp only [getRelayChannels, loadConfig, pyDictGet, dictLookup_dictSet_self,
      Option.getD_some]
  · rw [dictLookup_dictSet_self]

/-- Witness for C7 starting from the default config, which has no key "100". -/
theorem C7_add_appends_in_order_witness :
    ∃ f1 f2 f3 rfs2 rfs3,
      updateRelayChannels (File.json (JVal.obj [("relayChannels", JVal.obj [])]))
        "100" 200 = (.ok (), f1) ∧
      updateRelayChannels f1 "100" 300 = (.ok (), f2) ∧
      getRelayChannels f2 = (.ok (JVal.obj rfs2), f2) ∧
      dictLookup rfs2 "100" = some (JVal.arr [JVal.num 200, JVal.num 300]) ∧
      updateRelayChannels f2 "100" 200 = (.ok (), f3) ∧
      getRelayChannels f3 = (.ok (JVal.obj rfs3), f3) ∧
      dictLookup rfs3 "100" =
        some (JVal.arr [JVal.num 200, JVal.num 300, JVal.num 200]) :=
  C7_add_appends_in_order [("relayChannels", JVal.obj [])] [] rfl rfl

theorem updateRelayChannels_frame (cfs rfs : List (String × JVal)) (s : String)
    (d : Int)
    (hrelay : (dictLookup cfs "relayChannels").getD (JVal.obj []) = JVal.obj rfs) :
    (updateRelayChannels (File.json (JVal.obj cfs)) s d).2 =
        File.json (JVal.obj cfs) ∨
    ∃ rfs1, (updateRelayChannels (File.json (JVal.obj cfs)) s d).2 =
        File.json (JVal.obj (dictSet cfs "relayChannels" (JVal.obj rfs1))) ∧
      ∀ s', s' ≠ s → dictLookup rfs1 s' = dictLookup rfs s' := by
  cases hcur : (dictLookup rfs s).getD (JVal.arr []) with
  | arr xs =>
    right
    rw [updateRelayChannels_eq cfs rfs s d xs hrelay hcur]
    exact ⟨_, rfl, fun s' hs' => dictLookup_dictSet_ne rfs s s' _ hs'⟩
  | null =>
    left
    simp only [updateRelayChannels, loadConfig, hrelay, hcur]
  | bool b =>
    left
    simp only [updateRelayChannels, loadConfig, hrelay, hcur]
  | num n =>
    left
    simp only [updateRelayChannels, loadConfig, hrelay, hcur]
  | str t =>
    left
    simp only [updateRelayChannels, loadConfig, hrelay, hcur]
  | obj fs2 =>
    left
    simp only [updateRelayChannels, loadConfig, hrelay, hcur]

theorem removeRelayEntry_frame (cfs rfs : List (String × JVal)) (s : String)
    (dOpt : Option Int)
    (hrelay : (dictLookup cfs "relayChannels").getD (JVal.obj []) = JVal.obj rfs) :
    (removeRelayEntry (File.json (JVal.obj cfs)) s dOpt).2 =
        File.json (JVal.obj cfs) ∨
    ∃ rfs1, (removeRelayEntry (File.json (JVal.obj cfs)) s dOpt).2 =
        File.json (JVal.obj (dictSet cfs "relayChannels" (JVal.obj rfs1))) ∧
      ∀ s', s' ≠ s → dictLookup rfs1 s' = dictLookup rfs s' := by
  cases hlk : dictLookup rfs s with
  | none =>
    left
    rw [removeRelayEntry_not_key cfs rfs s dOpt hrelay hlk]
  | some entry =>
    cases dOpt with
    | none =>
      right
      rw [removeRelayEntry_all_eq cfs rfs s entry hrelay hlk]
      exact ⟨_, rfl, fun s' hs' => dictLookup_dictDel_ne rfs s s' hs'⟩
    | some d =>
      cases hpn : pyInNum d entry with
      | exc =>
        left
        rw [removeRelayEntry_dest_exc cfs rfs s d entry hrelay hlk hpn]
      | ok b =>
        cases b with
        | false =>
          left
          rw [removeRelayEntry_dest_not_mem cfs rfs s d entry hrelay hlk hpn]
        | true =>
          cases entry with
          | arr xs =>
            have hmem : xs.any (jEqNum d) = true := by
              simpa [pyInNum] using hpn
            right
            rw [removeRelayEntry_dest_mem_eq cfs rfs s d xs hrelay hlk hmem]
            refine ⟨_, rfl, fun s' hs' => ?_⟩
            by_cases hemp : (removeFirstEq d xs).isEmpty
            · rw [if_pos hemp, dictLookup_dictDel_ne rfs s s' hs']
            · rw [if_neg hemp, dictLookup_dictSet_ne rfs s s' _ hs']
          | null => exact absurd hpn (by simp [pyInNum])
          | bool b2 => exact absurd hpn (by simp [pyInNum])
          | num n => exact absurd hpn (by simp [pyInNum])
          | str t => exact absurd hpn (by simp [pyInNum])
          | obj fs2 => exact absurd hpn (by simp [pyInNum])

/-- Claim C10: addMapping(s, d) and removeMapping(s, dOpt) leave the
destination list of every other source s' unchanged, and preserve every
top-level config field other than relayChannels, through their
read-modify-write cycle. -/
theorem C10_frame_preservation (cfs rfs : List (String × JVal)) (s s' k : String)
    (d : Int) (dOpt : Option Int)
    (hrelay : (dictLookup cfs "relayChannels").getD (JVal.obj []) = JVal.obj rfs)
    (hs' : s' ≠ s) (hk : k ≠ "relayChannels") :
    (∃ cfs1 rfs1,
      (updateRelayChannels (File.json (JVal.obj cfs)) s d).2 =
          File.json (JVal.obj cfs1) ∧
      (dictLookup cfs1 "relayChannels").getD (JVal.obj []) = JVal.obj rfs1 ∧
      dictLookup rfs1 s' = dictLookup rfs s' ∧
      dictLookup cfs1 k = dictLookup cfs k) ∧
    (∃ cfs2 rfs2,
      (removeRelayEntry (File.json (JVal.obj cfs)) s dOpt).2 =
          File.json (JVal.obj cfs2) ∧
      (dictLookup cfs2 "relayChannels").getD (JVal.obj []) = JVal.obj rfs2 ∧
      dictLookup rfs2 s' = dictLookup rfs s' ∧
      dictLookup cfs2 k = dictLookup cfs k) := by
  constructor
  · rcases updateRelayChannels_frame cfs rfs s d hrelay with h | ⟨rfs1, h, hpres⟩
    · exact ⟨cfs, rfs, h, hrelay, rfl, rfl⟩
    · refine ⟨_, rfs1, h, ?_, hpres s' hs', dictLookup_dictSet_ne cfs "relayChannels"
        k _ hk⟩
      rw [dictLookup_dictSet_self, Option.getD_some]
  · rcases removeRelayEntry_frame cfs rfs s dOpt hrelay with h | ⟨rfs2, h, hpres⟩
    · exact ⟨cfs, rfs, h, hrelay, rfl, rfl⟩
    · refine ⟨_, rfs2, h, ?_, hpres s' hs', dictLookup_dictSet_ne cfs "relayChannels"
        k _ hk⟩
      rw [dictLookup_dictSet_self, Option.getD_some]

/-- Witness for C10 at a concrete config with a second source "200" and an
extra top-level field "version": adding to and removing from source "100"
touches neither. -/
theorem C10_frame_preservation_witness :
    (∃ cfs1 rfs1,
      (updateRelayChannels (File.json (JVal.obj [("version", JVal.num 1),
          ("relayChannels", JVal.obj [("100", JVal.arr [JVal.num 200]),
            ("200", JVal.arr [JVal.num 300])])])) "100" 400).2 =
          File.json (JVal.obj cfs1) ∧
      (dictLookup cfs1 "relayChannels").getD (JVal.obj []) = JVal.obj rfs1 ∧
      dictLookup rfs1 "200" =
        dictLookup [("100", JVal.arr [JVal.num 200]),
          ("200", JVal.arr [JVal.num 300])] "200" ∧
      dictLookup cfs1 "version" =
        dictLookup [("version", JVal.num 1),
          ("relayChannels", JVal.obj [("100", JVal.arr [JVal.num 200]),
            ("200", JVal.arr [JVal.num 300])])] "version") ∧
    (∃ cfs2 rfs2,
      (removeRelayEntry (File.json (JVal.obj [("version", JVal.num 1),
          ("relayChannels", JVal.obj [("100", JVal.arr [JVal.num 200]),
            ("200", JVal.arr [JVal.num 300])])])) "100" (some 200)).2 =
          File.json (JVal.obj cfs2) ∧
      (dictLookup cfs2 "relayChannels").getD (JVal.obj []) = JVal.obj rfs2 ∧
      dictLookup rfs2 "200" =
        dictLookup [("100", JVal.arr [JVal.num 200]),
          ("200", JVal.arr [JVal.num 300])] "200" ∧
      dictLookup cfs2 "version" =
        dictLookup [("version", JVal.num 1),
          ("relayChannels", JVal.obj [("100", JVal.arr [JVal.num 200]),
            ("200", JVal.arr [JVal.num 300])])] "version") :=
  C10_frame_preservation [("version", JVal.num 1),
      ("relayChannels", JVal.obj [("100", JVal.arr [JVal.num 200]),
        ("200", JVal.arr [JVal.num 300])])]
    [("100", JVal.arr [JVal.num 200]), ("200", JVal.arr [JVal.num 300])]
    "100" "200" "version" 400 (some 200) rfl (by decide) (by decide)

theorem forwardLoop_nums (resolvable : Int → Bool) (content : String)
    (ds : List Int) :
    forwardLoop resolvable content (ds.map JVal.num) =
      ((ds.filter resolvable).map (fun n => (n, content)), false) := by
  induction ds with
  | nil => rfl
  | cons n rest ih =>
    by_cases h : resolvable n
    · simp [forwardLoop, pyIntOf, h, ih, List.filter_cons]
    · simp [forwardLoop, pyIntOf, h, ih, List.filter_cons]

/-- Claim C3: a non-bot message on a channel whose id (as string) is a relay
source key has its raw text forwarded verbatim to exactly the destinations
that resolve, and command dispatch is not invoked; a non-bot message on any
other channel is handed to command dispatch and nothing is forwarded. -/
theorem C3_router_forward_or_dispatch :
    (∀ (cfs rfs : List (String × JVal)) (ds : List Int) (resolvable : Int → Bool)
      (msg : Message),
      msg.authorBot = false →
      (dictLookup cfs "relayChannels").getD (JVal.obj []) = JVal.obj rfs →
      dictLookup rfs (toString msg.channelId) = some (JVal.arr (ds.map JVal.num)) →
      on_message (File.json (JVal.obj cfs)) resolvable msg =
        (⟨(ds.filter resolvable).map (fun n => (n, msg.content)), false, false⟩,
          File.json (JVal.obj cfs))) ∧
    (∀ (cfs rfs : List (String × JVal)) (resolvable : Int → Bool) (msg : Message),
      msg.authorBot = false →
      (dictLookup cfs "relayChannels").getD (JVal.obj []) = JVal.obj rfs →
      dictLookup rfs (toString msg.channelId) = none →
      on_message (File.json (JVal.obj cfs)) resolvable msg =
        (⟨[], true, false⟩, File.json (JVal.obj cfs))) := by
  constructor
  · intro cfs rfs ds resolvable msg hbot hrelay hlk
    have hany := any_key_eq_true_of_lookup_some rfs (toString msg.channelId) _ hlk
    simp only [on_message, hbot, Bool.false_eq_true, if_false, getRelayChannels,
      loadConfig, pyDictGet, hrelay, pyInStr, hany, pyIndex, hlk, iterElems,
      forwardLoop_nums]
  · intro cfs rfs resolvable msg hbot hrelay hlk
    have hany := any_key_eq_false_of_lookup_none rfs (toString msg.channelId) hlk
    simp only [on_message, hbot, Bool.false_eq_true, if_false, getRelayChannels,
      loadConfig, pyDictGet, hrelay, pyInStr, hany]

/-- Witness for C3: with "100" mapped to [200, 300] and only channel 200
resolvable, a non-bot message on channel 100 is forwarded verbatim to 200
only, with no dispatch; a message on channel 555 is dispatched with no
forwarding. -/
theorem C3_router_forward_or_dispatch_witness :
    on_message (File.json (JVal.obj [("relayChannels",
        JVal.obj [("100", JVal.arr [JVal.num 200, JVal.num 300])])]))
      (fun n => n == 200) ⟨false, 100, [], "hello world"⟩ =
      (⟨[(200, "hello world")], false, false⟩,
        File.json (JVal.obj [("relayChannels",
          JVal.obj [("100", JVal.arr [JVal.num 200, JVal.num 300])])])) ∧
    on_message (File.json (JVal.obj [("relayChannels",
        JVal.obj [("100", JVal.arr [JVal.num 200, JVal.num 300])])]))
      (fun n => n == 200) ⟨false, 555, [], "<add"⟩ =
      (⟨[], true, false⟩,
        File.json (JVal.obj [("relayChannels",
          JVal.obj [("100", JVal.arr [JVal.num 200, JVal.num 300])])])) :=
  ⟨C3_router_forward_or_dispatch.1 _ [("100", JVal.arr [JVal.num 200, JVal.num 300])]
      [200, 300] (fun n => n == 200) ⟨false, 100, [], "hello world"⟩ rfl rfl rfl,
    C3_router_forward_or_dispatch.2 _ [("100", JVal.arr [JVal.num 200, JVal.num 300])]
      (fun n => n == 200) ⟨false, 555, [], "<add"⟩ rfl rfl rfl⟩

theorem removeFlow_all_reply (f : File) (resolvable : Int → Bool)
    (sourceMsg destMsg : Message) (c : Int)
    (hres : resolveFromMsg resolvable sourceMsg = .ok (some c))
    (hall : pyLower destMsg.content = "all") :
    removeFlow f resolvable sourceMsg destMsg =
      (match removeRelayEntry f (toString c) none with
       | (.ok true, f1) => (RemoveOutcome.removedAll, f1)
       | (.ok false, f1) => (RemoveOutcome.noRelaysFound, f1)
       | (.exc, f1) => (RemoveOutcome.cancelled, f1)) := by
  simp only [removeFlow, hres, hall, if_pos]

/-- Claim C8: in the remove flow, a second-phase reply lowering to "all"
makes the flow call removeRelayEntry with the resolved source id and no
destination, reporting removed-all or no-relays-found by the returned
boolean; when the source entry exists, the whole entry is removed. -/
theorem C8_remove_flow_all_case :
    (∀ (f : File) (resolvable : Int → Bool) (sourceMsg destMsg : Message) (c : Int),
      resolveFromMsg resolvable sourceMsg = .ok (some c) →
      pyLower destMsg.content = "all" →
      removeFlow f resolvable sourceMsg destMsg =
        (match removeRelayEntry f (toString c) none with
         | (.ok true, f1) => (RemoveOutcome.removedAll, f1)
         | (.ok false, f1) => (RemoveOutcome.noRelaysFound, f1)
         | (.exc, f1) => (RemoveOutcome.cancelled, f1))) ∧
    (∀ (cfs rfs : List (String × JVal)) (resolvable : Int → Bool)
      (sourceMsg destMsg : Message) (c : Int) (entry : JVal),
      resolveFromMsg resolvable sourceMsg = .ok (some c) →
      pyLower destMsg.content = "all" →
      (dictLookup cfs "relayChannels").getD (JVal.obj []) = JVal.obj rfs →
      (rfs.map Prod.fst).Nodup →
      dictLookup rfs (toString c) = some entry →
      ∃ rfs1, removeFlow (File.json (JVal.obj cfs)) resolvable sourceMsg destMsg =
          (RemoveOutcome.removedAll,
            File.json (JVal.obj (dictSet cfs "relayChannels" (JVal.obj rfs1)))) ∧
        dictLookup rfs1 (toString c) = none) := by
  constructor
  · intro f resolvable sourceMsg destMsg c hres hall
    exact removeFlow_all_reply f resolvable sourceMsg destMsg c hres hall
  · intro cfs rfs resolvable sourceMsg destMsg c entry hres hall hrelay hnd hlk
    refine ⟨dictDel rfs (toString c), ?_,
      dictLookup_dictDel_self rfs (toString c) hnd⟩
    rw [removeFlow_all_reply _ resolvable sourceMsg destMsg c hres hall,
      removeRelayEntry_all_eq cfs rfs (toString c) entry hrelay hlk]

/-- Witness for C8: the source reply mentions channel 100 and the second
reply is "All" (mixed case); with "100" mapped to [200] the whole entry is
removed, and the general routing equation holds at the same inputs. -/
theorem C8_remove_flow_all_case_witness :
    removeFlow (File.json (JVal.obj [("relayChannels",
        JVal.obj [("100", JVal.arr [JVal.num 200])])]))
      (fun _ => true) ⟨false, 0, [100], ""⟩ ⟨false, 0, [], "All"⟩ =
      (RemoveOutcome.removedAll,
        File.json (JVal.obj [("relayChannels", JVal.obj [])])) ∧
    (∃ rfs1, removeFlow (File.json (JVal.obj [("relayChannels",
          JVal.obj [("100", JVal.arr [JVal.num 200])])]))
        (fun _ => true) ⟨false, 0, [100], ""⟩ ⟨false, 0, [], "All"⟩ =
        (RemoveOutcome.removedAll,
          File.json (JVal.obj (dictSet [("relayChannels",
            JVal.obj [("100", JVal.arr [JVal.num 200])])] "relayChannels"
            (JVal.obj rfs1)))) ∧
      dictLookup rfs1 "100" = none) :=
  ⟨C8_remove_flow_all_case.1 (File.json (JVal.obj [("relayChannels",
        JVal.obj [("100", JVal.arr [JVal.num 200])])]))
      (fun _ => true) ⟨false, 0, [100], ""⟩ ⟨false, 0, [], "All"⟩ 100 rfl rfl,
    C8_remove_flow_all_case.2 [("relayChannels",
        JVal.obj [("100", JVal.arr [JVal.num 200])])]
      [("100", JVal.arr [JVal.num 200])] (fun _ => true)
      ⟨false, 0, [100], ""⟩ ⟨false, 0, [], "All"⟩ 100
      (JVal.arr [JVal.num 200]) rfl rfl rfl (by simp) rfl⟩

end RelayBot
